import Mathlib

/-!
Shallow embedding of rsdbgen (src/main.rs), a Postgres-to-Rust code
generator.  The program reads `information_schema.columns` ordered by
table name and ordinal position, groups consecutive rows by table name
(itertools `group_by`), and for each table not on the denylist emits a
full-row struct, an input-row struct and an insert function.

Machine-level side effects (panic) are made explicit with `PanicOr`.
-/

/-- A row of the catalog query in `do_it` (main.rs:17-21):
`(table_name, column_name, data_type, is_nullable)`.  The source unwraps
each field's `Option`; we model the fields as already present. -/
structure CatalogRow where
  table_name : String
  column_name : String
  data_type : String
  is_nullable : String
deriving DecidableEq

/-- The per-column triple `(column_name, data_type, is_nullable)` built at
main.rs:33-41 and consumed by `add_structs_for_table` / `add_insert_for_table`. -/
structure ColumnInfo where
  name : String
  data_type : String
  is_nullable : String
deriving DecidableEq

/-- Result of running code that may abort the process via the `panic!`
primitive: either a normal value or a panic with its message. -/
inductive PanicOr (α : Type) where
  | panic : String → PanicOr α
  | ok : α → PanicOr α
deriving DecidableEq

/-- main.rs:173-188 `pg_type_to_rs_type`.  A Rust `match` on a `&str`
scrutinee is an equality chain over the literal patterns; the wildcard arm
executes `panic!("Unknown type: {}", pg_type)`, modelled as `PanicOr.panic`. -/
def pg_type_to_rs_type (pg_type : String) : PanicOr String :=
  if pg_type = "integer" then .ok "i32"
  else if pg_type = "bigint" then .ok "i64"
  else if pg_type = "real" then .ok "f32"
  else if pg_type = "text" then .ok "String"
  else if pg_type = "character varying" then .ok "String"
  else if pg_type = "timestamp with time zone" then .ok "chrono::DateTime<chrono::Utc>"
  else if pg_type = "boolean" then .ok "bool"
  else if pg_type = "bytea" then .ok "Vec<u8>"
  else if pg_type = "USER-DEFINED" then .ok "()"
  else if pg_type = "numeric" then .ok "bigdecimal::BigDecimal"
  else .panic ("Unknown type: " ++ pg_type)

/-- The list of source type strings `pg_type_to_rs_type` accepts. -/
def supportedPgTypes : List String :=
  ["integer", "bigint", "real", "text", "character varying",
   "timestamp with time zone", "boolean", "bytea", "USER-DEFINED", "numeric"]

/-- Split a character list at underscores (the segment structure of a
snake_case identifier); always returns at least one (possibly empty) word. -/
def splitUnderscore : List Char → List (List Char)
  | [] => [[]]
  | c :: cs =>
    match splitUnderscore cs with
    | [] => [[c]]
    | w :: ws => if c = '_' then [] :: w :: ws else (c :: w) :: ws

/-- Uppercase the first character of a word, keeping the rest unchanged
(the effect of the inflector crate's camel-like case conversion on each
underscore-delimited segment of a lower-case identifier). -/
def capitalizeWord (w : List Char) : List Char :=
  match w with
  | [] => []
  | c :: cs => c.toUpper :: cs

/-- True exactly when `suffix` is a suffix of `l`. -/
def endsIn (l suffix : List Char) : Bool :=
  suffix.isSuffixOf l

/-- Drop the last `n` characters of a word. -/
def dropEnd (l : List Char) (n : Nat) : List Char :=
  l.take (l.length - n)

/-- Model of the external inflector crate's English singularizer
(`inflector::string::singularize::to_singular`, v0.11) restricted to the
regular plural rules that apply to snake_case table identifiers:
`-ies` becomes `-y`, `-xes`/`-ches`/`-shes` drop `es`, a final `s` not part
of `ss` is dropped, anything else is returned unchanged. -/
def to_singular (w : List Char) : List Char :=
  if endsIn w ['s', 's'] then w
  else if endsIn w ['i', 'e', 's'] then dropEnd w 3 ++ ['y']
  else if endsIn w ['x', 'e', 's'] || endsIn w ['c', 'h', 'e', 's'] ||
      endsIn w ['s', 'h', 'e', 's'] then dropEnd w 2
  else if endsIn w ['s'] then dropEnd w 1
  else w

/-- Model of the external inflector crate's
`inflector::cases::classcase::to_class_case` (v0.11), used at
main.rs:133 and main.rs:137.  The crate pascal-cases the input (uppercasing
the first letter of each underscore-delimited segment), then splits the
result at its last uppercase letter and singularizes the trailing word.
For a snake_case identifier that trailing word is the last segment, so we
capitalize every segment and singularize the last one. -/
def to_class_case (s : String) : String :=
  let ws := (splitUnderscore s.data).map capitalizeWord
  String.mk (ws.dropLast.flatten ++ to_singular (ws.getLastD []))

/-- main.rs:136-138 `row_struct_name`. -/
def row_struct_name (table_name : String) : String :=
  to_class_case table_name ++ "Row"

/-- main.rs:132-134 `input_row_struct_name`. -/
def input_row_struct_name (table_name : String) : String :=
  to_class_case table_name ++ "InputRow"

/-- The filter at main.rs:67-70 (and, on mapped fields, main.rs:167):
`c.0 != "id" && c.0 != "created_at"`. -/
def insertable (c : ColumnInfo) : Bool :=
  !(c.name == "id") && !(c.name == "created_at")

/-- main.rs:67-70: the insertable columns of a table. -/
def insertableColumns (cols : List ColumnInfo) : List ColumnInfo :=
  cols.filter insertable

/-- main.rs:71: each insertable column name wrapped in double quotes,
before joining with `", "`. -/
def insertNameList (cols : List ColumnInfo) : List String :=
  (insertableColumns cols).map (fun c => "\"" ++ c.name ++ "\"")

/-- main.rs:72: the bound arguments `row.<column>`, before joining. -/
def argsList (cols : List ColumnInfo) : List String :=
  (insertableColumns cols).map (fun c => "row." ++ c.name)

/-- main.rs:73-77: `$`-placeholders built by `enumerate()`, `$1`-based. -/
def insertPlaceholders (cols : List ColumnInfo) : List String :=
  (insertableColumns cols).enum.map (fun p => "$" ++ toString (p.1 + 1))

/-- The SQL statement text inside the raw string at main.rs:82-84, with the
name list, placeholder list and table name interpolated (the raw string
keeps the source's 8-space indentation before `VALUES` and `RETURNING`). -/
def insertStatement (table_name : String) (cols : List ColumnInfo) : String :=
  "INSERT INTO " ++ table_name ++ " (" ++
    String.intercalate ", " (insertNameList cols) ++
    ")\n        VALUES (" ++
    String.intercalate ", " (insertPlaceholders cols) ++
    ")\n        RETURNING *"

/-- main.rs:55: the generated insert function's name. -/
def insert_fn_name (table_name : String) : String :=
  "insert_" ++ table_name

/-- main.rs:145-155: one column's struct field `(name, rust type)`:
map the source type (which may panic) and wrap in `Option<...>` when
`is_nullable == "YES"`. -/
def columnField (c : ColumnInfo) : PanicOr (String × String) :=
  match pg_type_to_rs_type c.data_type with
  | .panic m => .panic m
  | .ok ty => .ok (c.name, if c.is_nullable == "YES" then "Option<" ++ ty ++ ">" else ty)

/-- main.rs:145-156: the full-row field list, left to right; the first
unsupported column type panics the whole run. -/
def rowFields : List ColumnInfo → PanicOr (List (String × String))
  | [] => .ok []
  | c :: cs =>
    match columnField c with
    | .panic m => .panic m
    | .ok f =>
      match rowFields cs with
      | .panic m => .panic m
      | .ok fs => .ok (f :: fs)

/-- The filter at main.rs:167 on already-mapped fields:
`column.0 != "id" && column.0 != "created_at"`. -/
def fieldKeep (f : String × String) : Bool :=
  !(f.1 == "id") && !(f.1 == "created_at")

/-- main.rs:164-170: the input-row field list, obtained from the mapped
full-row fields by dropping `id` and `created_at`. -/
def inputRowFields (cols : List ColumnInfo) : PanicOr (List (String × String)) :=
  match rowFields cols with
  | .panic m => .panic m
  | .ok fs => .ok (fs.filter fieldKeep)

/-- Everything `add_structs_for_table` and `add_insert_for_table` emit for
one table: the two struct definitions, the insert function's name, its
statement text and its bound-argument list. -/
structure TableOutput where
  rowName : String
  rowFieldList : List (String × String)
  inputName : String
  inputFieldList : List (String × String)
  fnName : String
  statement : String
  argList : List String
deriving DecidableEq

/-- main.rs:42-43: what one table contributes to the output scope. -/
def emitTable (table_name : String) (cols : List ColumnInfo) : PanicOr TableOutput :=
  match rowFields cols with
  | .panic m => .panic m
  | .ok fs =>
    .ok { rowName := row_struct_name table_name
          rowFieldList := fs
          inputName := input_row_struct_name table_name
          inputFieldList := fs.filter fieldKeep
          fnName := insert_fn_name table_name
          statement := insertStatement table_name cols
          argList := argsList cols }

/-- main.rs:50-52 `should_emit`: the denylist check. -/
def should_emit (table_name : String) : Bool :=
  table_name != "_sqlx_migrations"

/-- main.rs:33-41: project a catalog row to the per-column triple. -/
def toColumnInfo (r : CatalogRow) : ColumnInfo :=
  ⟨r.column_name, r.data_type, r.is_nullable⟩

/-- main.rs:22-24: itertools `group_by(|t| t.table_name)`, run-length
grouping of consecutive rows sharing a table name. -/
def group_by : List CatalogRow → List (String × List CatalogRow)
  | [] => []
  | r :: rs =>
    match group_by rs with
    | [] => [(r.table_name, [r])]
    | (t, g) :: gs =>
      if r.table_name = t then (t, r :: g) :: gs
      else (r.table_name, [r]) :: (t, g) :: gs

/-- main.rs:27-45: the per-group loop — skip denylisted tables, emit
structs and insert function for the rest, in order. -/
def emitGroups : List (String × List CatalogRow) → PanicOr (List TableOutput)
  | [] => .ok []
  | (t, rs) :: rest =>
    if should_emit t then
      match emitTable t (rs.map toColumnInfo) with
      | .panic m => .panic m
      | .ok o =>
        match emitGroups rest with
        | .panic m => .panic m
        | .ok os => .ok (o :: os)
    else emitGroups rest

/-- main.rs:22-46: the whole generation pipeline after the catalog read. -/
def generate (rows : List CatalogRow) : PanicOr (List TableOutput) :=
  emitGroups (group_by rows)

/-! ## Claim theorems -/

/-- End-to-end sanity check of the pipeline: a catalog stream holding the
denylisted migration table and a `users` table yields exactly the `users`
structs and insert function. -/
theorem generate_end_to_end :
    generate [⟨"_sqlx_migrations", "id", "bigint", "NO"⟩, ⟨"users", "id", "integer", "NO"⟩,
        ⟨"users", "name", "text", "NO"⟩] =
      .ok [{ rowName := "UserRow", rowFieldList := [("id", "i32"), ("name", "String")],
             inputName := "UserInputRow", inputFieldList := [("name", "String")],
             fnName := "insert_users",
             statement := "INSERT INTO users (\"name\")\n        VALUES ($1)\n        RETURNING *",
             argList := ["row.name"] }] := by
  decide

/-- C3: the type mapper is a pure total function on the supported source
types returning the documented target type for each: `integer` to `i32`,
`bigint` to `i64`, `real` to `f32`, `text` and `character varying` to
`String`, `timestamp with time zone` to a timezone-aware timestamp,
`boolean` to `bool`, `bytea` to a byte sequence, `numeric` to an
arbitrary-precision decimal, `USER-DEFINED` to the unit placeholder. -/
theorem type_mapper_documented_table :
    pg_type_to_rs_type "integer" = .ok "i32" ∧
    pg_type_to_rs_type "bigint" = .ok "i64" ∧
    pg_type_to_rs_type "real" = .ok "f32" ∧
    pg_type_to_rs_type "text" = .ok "String" ∧
    pg_type_to_rs_type "character varying" = .ok "String" ∧
    pg_type_to_rs_type "timestamp with time zone" = .ok "chrono::DateTime<chrono::Utc>" ∧
    pg_type_to_rs_type "boolean" = .ok "bool" ∧
    pg_type_to_rs_type "bytea" = .ok "Vec<u8>" ∧
    pg_type_to_rs_type "numeric" = .ok "bigdecimal::BigDecimal" ∧
    pg_type_to_rs_type "USER-DEFINED" = .ok "()" := by
  decide

/-- C4 counterexample: on the unsupported type string `json` the mapper
aborts via the `panic!` primitive (modelled by `PanicOr.panic`) rather than
returning a typed error value, so the claim that generation never fails
through a language-level abrupt-termination primitive is false. -/
theorem unsupported_type_panics_cex :
    pg_type_to_rs_type "json" = PanicOr.panic "Unknown type: json" := by
  decide

/-- C4 amended: for every source type string outside the supported mapping
table, the mapper aborts the whole run via a panic whose message carries
the offending type string, producing no output. -/
theorem unsupported_type_panics (s : String) (h : s ∉ supportedPgTypes) :
    pg_type_to_rs_type s = .panic ("Unknown type: " ++ s) := by
  simp only [supportedPgTypes, List.mem_cons, List.not_mem_nil, not_or, or_false] at h
  obtain ⟨h1, h2, h3, h4, h5, h6, h7, h8, h9, h10⟩ := h
  simp [pg_type_to_rs_type, h1, h2, h3, h4, h5, h6, h7, h8, h9, h10]

/-- C4 witness: the amended theorem applied at the concrete type `json`. -/
theorem unsupported_type_panics_wit :
    pg_type_to_rs_type "json" = .panic ("Unknown type: " ++ "json") :=
  unsupported_type_panics "json" (by decide)

/-- C5: for every column whose source type is supported, a `YES` nullable
flag yields the optional wrapper applied once to the mapped type, and any
other flag yields the bare mapped type. -/
theorem nullable_wrapping (c : ColumnInfo) (ty : String)
    (h : pg_type_to_rs_type c.data_type = .ok ty) :
    (c.is_nullable = "YES" → columnField c = .ok (c.name, "Option<" ++ ty ++ ">")) ∧
    (c.is_nullable ≠ "YES" → columnField c = .ok (c.name, ty)) := by
  unfold columnField
  rw [h]
  constructor
  · intro hy
    simp [hy]
  · intro hn
    simp [hn]

/-- C5 witness: a nullable `text` column gets `Option<String>`. -/
theorem nullable_wrapping_wit :
    columnField ⟨"bio", "text", "YES"⟩ = .ok ("bio", "Option<" ++ "String" ++ ">") :=
  (nullable_wrapping ⟨"bio", "text", "YES"⟩ "String" (by decide)).1 rfl

/-- C7 counterexample: the identifier transformation (inflector class
case) singularizes the trailing segment, so `order_items` becomes
`OrderItem`, not `OrderItems` as the claim states. -/
theorem class_case_singularizes_cex :
    to_class_case "order_items" = "OrderItem" ∧
    to_class_case "order_items" ≠ "OrderItems" := by
  decide

/-- C7 amended: the transformation is deterministic, capitalizes each
underscore-delimited segment and singularizes the trailing segment
(`order_items` to `OrderItem`, `user_accounts` to `UserAccount`), and the
full-row and input-row type names are the transformed name suffixed with
`Row` and `InputRow`. -/
theorem type_name_transformation :
    (∀ t, row_struct_name t = to_class_case t ++ "Row") ∧
    (∀ t, input_row_struct_name t = to_class_case t ++ "InputRow") ∧
    to_class_case "order_items" = "OrderItem" ∧
    to_class_case "user_accounts" = "UserAccount" ∧
    to_class_case "users" = "User" ∧
    row_struct_name "order_items" = "OrderItemRow" ∧
    input_row_struct_name "order_items" = "OrderItemInputRow" :=
  ⟨fun _ => rfl, fun _ => rfl, by decide, by decide, by decide, by decide, by decide⟩

/-- C9 counterexample: the emitter wraps each column identifier of the
insert column list in double quotes, so for a column named `name` the
emitted statement contains `"name"` rather than the bare identifier the
claim promises. -/
theorem verbatim_identifiers_cex :
    insertStatement "users" [⟨"name", "text", "NO"⟩] =
      "INSERT INTO users (\"name\")\n        VALUES ($1)\n        RETURNING *" ∧
    insertStatement "users" [⟨"name", "text", "NO"⟩] ≠
      "INSERT INTO users (name)\n        VALUES ($1)\n        RETURNING *" := by
  decide

/-- C9 amended: the table identifier is interpolated verbatim with no
quoting; each column identifier in the insert column list is wrapped in
double quotes with the raw name interpolated unescaped inside them (a name
containing a double quote is not escaped); bound-argument references use
the bare name. -/
theorem identifier_interpolation :
    (∀ t cols, insertStatement t cols =
      "INSERT INTO " ++ t ++ " (" ++
        String.intercalate ", " (insertNameList cols) ++
        ")\n        VALUES (" ++
        String.intercalate ", " (insertPlaceholders cols) ++
        ")\n        RETURNING *") ∧
    (∀ cols, insertNameList cols =
      (insertableColumns cols).map (fun c => "\"" ++ c.name ++ "\"")) ∧
    (∀ cols, argsList cols =
      (insertableColumns cols).map (fun c => "row." ++ c.name)) ∧
    insertNameList [⟨"a\"b", "text", "NO"⟩] = ["\"a\"b\""] :=
  ⟨fun _ _ => rfl, fun _ => rfl, fun _ => rfl, by decide⟩

/-- C1: the placeholder list has exactly one `$`-placeholder per insertable
column, numbered consecutively from `$1`, and at every index the
placeholder, the (quoted) column name and the bound argument `row.<name>`
all come from the same insertable column. -/
theorem insert_alignment (cols : List ColumnInfo) :
    (insertPlaceholders cols).length = (insertableColumns cols).length ∧
    (insertNameList cols).length = (insertableColumns cols).length ∧
    (argsList cols).length = (insertableColumns cols).length ∧
    ∀ i c, (insertableColumns cols)[i]? = some c →
      (insertPlaceholders cols)[i]? = some ("$" ++ toString (i + 1)) ∧
      (insertNameList cols)[i]? = some ("\"" ++ c.name ++ "\"") ∧
      (argsList cols)[i]? = some ("row." ++ c.name) := by
  refine ⟨by simp [insertPlaceholders], by simp [insertNameList], by simp [argsList], ?_⟩
  intro i c hc
  refine ⟨?_, ?_, ?_⟩
  · simp [insertPlaceholders, List.getElem?_map, List.getElem?_enum, hc]
  · simp [insertNameList, List.getElem?_map, hc]
  · simp [argsList, List.getElem?_map, hc]

/-- C1 witness: the alignment at index 1 of a two-column table. -/
theorem insert_alignment_wit :
    (insertPlaceholders [⟨"name", "text", "NO"⟩, ⟨"bio", "text", "YES"⟩])[1]? =
      some ("$" ++ toString (1 + 1)) :=
  ((insert_alignment [⟨"name", "text", "NO"⟩, ⟨"bio", "text", "YES"⟩]).2.2.2 1
    ⟨"bio", "text", "YES"⟩ (by decide)).1

/-- C2: the input-row field list is the full-row field list with exactly
the fields named `id` and `created_at` removed: it is a sublist (so the
relative order and the field types are preserved), no kept field is named
`id` or `created_at`, and every other field of the full row is kept. -/
theorem input_fields_filter (cols : List ColumnInfo) (fs : List (String × String))
    (h : rowFields cols = .ok fs) :
    inputRowFields cols = .ok (fs.filter fieldKeep) ∧
    (fs.filter fieldKeep).Sublist fs ∧
    (∀ f ∈ fs.filter fieldKeep, f.1 ≠ "id" ∧ f.1 ≠ "created_at") ∧
    (∀ f ∈ fs, f.1 ≠ "id" → f.1 ≠ "created_at" → f ∈ fs.filter fieldKeep) := by
  refine ⟨by simp [inputRowFields, h], List.filter_sublist _, ?_, ?_⟩
  · intro f hf
    have hk := List.of_mem_filter hf
    simp only [fieldKeep, Bool.and_eq_true, Bool.not_eq_true', beq_eq_false_iff_ne] at hk
    exact hk
  · intro f hf h1 h2
    refine List.mem_filter.2 ⟨hf, ?_⟩
    simp [fieldKeep, h1, h2]

/-- C2 witness: the spec's `users` scenario — the input row keeps exactly
`name` and `bio`, in order, with their full-row types. -/
theorem input_fields_filter_wit :
    inputRowFields
        [⟨"id", "integer", "NO"⟩, ⟨"name", "text", "NO"⟩, ⟨"bio", "text", "YES"⟩,
         ⟨"created_at", "timestamp with time zone", "NO"⟩] =
      .ok ([("id", "i32"), ("name", "String"), ("bio", "Option<String>"),
            ("created_at", "chrono::DateTime<chrono::Utc>")].filter fieldKeep) :=
  (input_fields_filter
    [⟨"id", "integer", "NO"⟩, ⟨"name", "text", "NO"⟩, ⟨"bio", "text", "YES"⟩,
     ⟨"created_at", "timestamp with time zone", "NO"⟩]
    [("id", "i32"), ("name", "String"), ("bio", "Option<String>"),
     ("created_at", "chrono::DateTime<chrono::Utc>")] (by decide)).1

/-- Flattening the groups restores the original catalog row stream:
grouping never reorders, drops or duplicates rows. -/
theorem group_by_flatten (rs : List CatalogRow) :
    ((group_by rs).map Prod.snd).flatten = rs := by
  induction rs with
  | nil => rfl
  | cons r rs ih =>
    cases hg : group_by rs with
    | nil =>
      rw [hg] at ih
      simp only [List.map_nil, List.flatten_nil] at ih
      simp [group_by, hg, ← ih]
    | cons q gs =>
      obtain ⟨t, g⟩ := q
      rw [hg] at ih
      simp only [List.map_cons, List.flatten_cons] at ih
      by_cases hr : r.table_name = t
      · simp only [group_by, hg, if_pos hr, List.map_cons, List.flatten_cons]
        rw [List.cons_append, ih]
      · simp only [group_by, hg, if_neg hr, List.map_cons, List.flatten_cons]
        rw [List.singleton_append, ih]

/-- Every group is nonempty and all its rows carry the group's key. -/
theorem group_by_keyed (rs : List CatalogRow) :
    ∀ p ∈ group_by rs, p.2 ≠ [] ∧ ∀ x ∈ p.2, x.table_name = p.1 := by
  induction rs with
  | nil => simp [group_by]
  | cons r rs ih =>
    intro p hp
    cases hg : group_by rs with
    | nil =>
      simp only [group_by, hg, List.mem_singleton] at hp
      subst hp
      simp
    | cons q gs =>
      obtain ⟨t, g⟩ := q
      simp only [group_by, hg] at hp
      rw [hg] at ih
      by_cases hr : r.table_name = t
      · rw [if_pos hr] at hp
        rcases List.mem_cons.1 hp with h | h
        · subst h
          have hq := ih (t, g) (List.mem_cons_self _ _)
          refine ⟨by simp, ?_⟩
          intro x hx
          rcases List.mem_cons.1 hx with hx | hx
          · subst hx; exact hr
          · exact hq.2 x hx
        · exact ih p (List.mem_cons_of_mem _ h)
      · rw [if_neg hr] at hp
        rcases List.mem_cons.1 hp with h | h
        · subst h
          exact ⟨by simp, by intro x hx; rcases List.mem_singleton.1 hx with rfl; rfl⟩
        · exact ih p h

/-- Adjacent groups always carry different keys: runs are maximal. -/
theorem group_by_chain (rs : List CatalogRow) :
    List.Chain' (fun a b : String × List CatalogRow => a.1 ≠ b.1) (group_by rs) := by
  induction rs with
  | nil => simp [group_by]
  | cons r rs ih =>
    cases hg : group_by rs with
    | nil => simp [group_by, hg]
    | cons q gs =>
      obtain ⟨t, g⟩ := q
      rw [hg] at ih
      by_cases hr : r.table_name = t
      · simp only [group_by, hg, if_pos hr]
        have hih := List.chain'_cons'.1 ih
        exact List.chain'_cons'.2 ⟨hih.1, hih.2⟩
      · simp only [group_by, hg, if_neg hr]
        refine List.chain'_cons'.2 ⟨?_, ih⟩
        intro b hb
        simp only [List.head?_cons, Option.mem_def, Option.some.injEq] at hb
        subst hb
        exact hr

/-- C6: the grouper is a run-length grouping of the ordered column stream:
flattening the groups restores the input (order preserved, nothing merged
across runs), every group is a nonempty run of rows carrying the group's
table name, adjacent groups have distinct table names (runs are maximal),
and on the two scenario inputs it yields two and three groups
respectively, with the same table name appearing non-consecutively
producing separate groups. -/
theorem grouping_run_length :
    (∀ rs : List CatalogRow, ((group_by rs).map Prod.snd).flatten = rs) ∧
    (∀ rs : List CatalogRow, ∀ p ∈ group_by rs,
      p.2 ≠ [] ∧ ∀ x ∈ p.2, x.table_name = p.1) ∧
    (∀ rs : List CatalogRow,
      List.Chain' (fun a b : String × List CatalogRow => a.1 ≠ b.1) (group_by rs)) ∧
    group_by [⟨"t1", "c1", "text", "NO"⟩, ⟨"t1", "c2", "text", "NO"⟩,
        ⟨"t2", "c1", "text", "NO"⟩] =
      [("t1", [⟨"t1", "c1", "text", "NO"⟩, ⟨"t1", "c2", "text", "NO"⟩]),
       ("t2", [⟨"t2", "c1", "text", "NO"⟩])] ∧
    group_by [⟨"t1", "c1", "text", "NO"⟩, ⟨"t2", "c1", "text", "NO"⟩,
        ⟨"t1", "c2", "text", "NO"⟩] =
      [("t1", [⟨"t1", "c1", "text", "NO"⟩]), ("t2", [⟨"t2", "c1", "text", "NO"⟩]),
       ("t1", [⟨"t1", "c2", "text", "NO"⟩])] :=
  ⟨group_by_flatten, group_by_keyed, group_by_chain, by decide, by decide⟩

/-- C6 witness: the keyed-run part of the theorem applied to a concrete
group and row of the first scenario. -/
theorem grouping_run_length_wit :
    (⟨"t1", "c1", "text", "NO"⟩ : CatalogRow).table_name = "t1" :=
  (grouping_run_length.2.1 [⟨"t1", "c1", "text", "NO"⟩]
      ("t1", [⟨"t1", "c1", "text", "NO"⟩]) (by decide)).2
    ⟨"t1", "c1", "text", "NO"⟩ (by decide)

/-- Skipping denylisted groups commutes with pre-filtering the group list:
the output is exactly the output of the non-denylisted groups. -/
theorem emitGroups_filter (groups : List (String × List CatalogRow)) :
    emitGroups groups = emitGroups (groups.filter (fun g => should_emit g.1)) := by
  induction groups with
  | nil => rfl
  | cons g rest ih =>
    obtain ⟨t, rs⟩ := g
    by_cases h : should_emit t = true
    · simp only [List.filter_cons, h, if_true]
      simp only [emitGroups, h, if_true, ih]
    · simp only [List.filter_cons]
      rw [if_neg (by simp [h])]
      simp only [emitGroups, h, if_false, Bool.false_eq_true]
      exact ih

/-- C8: the denylist check rejects exactly `_sqlx_migrations`; the output
equals the output of the non-denylisted groups (so nothing derived from a
denylisted table is ever present); a denylisted group contributes nothing;
and every non-denylisted group gets its two structs and insert function
emitted, in order. -/
theorem denylist_excluded :
    should_emit "_sqlx_migrations" = false ∧
    (∀ t, t ≠ "_sqlx_migrations" → should_emit t = true) ∧
    (∀ groups : List (String × List CatalogRow),
      emitGroups groups = emitGroups (groups.filter (fun g => should_emit g.1))) ∧
    (∀ cs rest, emitGroups (("_sqlx_migrations", cs) :: rest) = emitGroups rest) ∧
    (∀ t cs rest fs outs, t ≠ "_sqlx_migrations" →
      rowFields (cs.map toColumnInfo) = .ok fs → emitGroups rest = .ok outs →
      emitGroups ((t, cs) :: rest) = .ok
        ({ rowName := row_struct_name t, rowFieldList := fs,
           inputName := input_row_struct_name t, inputFieldList := fs.filter fieldKeep,
           fnName := insert_fn_name t,
           statement := insertStatement t (cs.map toColumnInfo),
           argList := argsList (cs.map toColumnInfo) } :: outs)) := by
  refine ⟨rfl, ?_, emitGroups_filter, ?_, ?_⟩
  · intro t h
    simp [should_emit, h]
  · intro cs rest
    rfl
  · intro t cs rest fs outs h1 h2 h3
    have hs : should_emit t = true := by simp [should_emit, h1]
    simp [emitGroups, hs, emitTable, h2, h3]

/-- C8 witness: a singleton non-denylisted group is emitted with its
structs and insert function. -/
theorem denylist_excluded_wit :
    emitGroups [("users", [⟨"users", "name", "text", "NO"⟩])] = .ok
      [{ rowName := row_struct_name "users", rowFieldList := [("name", "String")],
         inputName := input_row_struct_name "users",
         inputFieldList := [(("name" : String), ("String" : String))].filter fieldKeep,
         fnName := insert_fn_name "users",
         statement := insertStatement "users"
           ([(⟨"users", "name", "text", "NO"⟩ : CatalogRow)].map toColumnInfo),
         argList := argsList
           ([(⟨"users", "name", "text", "NO"⟩ : CatalogRow)].map toColumnInfo) }] :=
  denylist_excluded.2.2.2.2 "users" [⟨"users", "name", "text", "NO"⟩] [] [("name", "String")]
    [] (by decide) (by decide) rfl

/-- A successfully mapped field keeps its column's name. -/
theorem columnField_name (c : ColumnInfo) (f : String × String)
    (h : columnField c = .ok f) : f.1 = c.name := by
  unfold columnField at h
  cases hp : pg_type_to_rs_type c.data_type with
  | panic m => rw [hp] at h; cases h
  | ok ty =>
    rw [hp] at h
    cases h
    rfl

/-- The mapped full-row field names are exactly the column names, in
order. -/
theorem rowFields_names (cols : List ColumnInfo) (fs : List (String × String))
    (h : rowFields cols = .ok fs) : fs.map Prod.fst = cols.map ColumnInfo.name := by
  induction cols generalizing fs with
  | nil =>
    simp only [rowFields] at h
    cases h
    rfl
  | cons c cs ih =>
    simp only [rowFields] at h
    cases hc : columnField c with
    | panic m => rw [hc] at h; cases h
    | ok f =>
      rw [hc] at h
      cases hr : rowFields cs with
      | panic m => rw [hr] at h; cases h
      | ok fs' =>
        rw [hr] at h
        cases h
        simp only [List.map_cons]
        rw [columnField_name c f hc, ih fs' hr]

/-- C10: for a table whose every column is named `id` or `created_at`, the
insertable column set is empty, the generator still emits — not skips —
the table: the insert statement has empty column and placeholder lists,
the argument list is empty, and (when the column types map) the input-row
struct is emitted with zero fields. -/
theorem empty_insertable (t : String) (cols : List ColumnInfo)
    (hall : ∀ c ∈ cols, c.name = "id" ∨ c.name = "created_at") :
    insertableColumns cols = [] ∧
    insertStatement t cols =
      "INSERT INTO " ++ t ++ " ()\n        VALUES ()\n        RETURNING *" ∧
    argsList cols = [] ∧
    (∀ fs, rowFields cols = .ok fs →
      emitTable t cols = .ok
        { rowName := row_struct_name t, rowFieldList := fs,
          inputName := input_row_struct_name t, inputFieldList := [],
          fnName := insert_fn_name t,
          statement :=
            "INSERT INTO " ++ t ++ " ()\n        VALUES ()\n        RETURNING *",
          argList := [] }) := by
  have hins : insertableColumns cols = [] := by
    rw [insertableColumns, List.filter_eq_nil_iff]
    intro c hc
    rcases hall c hc with h | h <;> simp [insertable, h]
  have hstmt : insertStatement t cols =
      "INSERT INTO " ++ t ++ " ()\n        VALUES ()\n        RETURNING *" := by
    rw [insertStatement, insertNameList, insertPlaceholders, hins]
    show "INSERT INTO " ++ t ++ " (" ++ "" ++ ")\n        VALUES (" ++ "" ++
        ")\n        RETURNING *" = _
    rw [String.append_empty, String.append_empty]
    simp only [String.append_assoc]
    congr 1
  refine ⟨hins, hstmt, by rw [argsList, hins]; rfl, ?_⟩
  intro fs hfs
  have hnames : fs.map Prod.fst = cols.map ColumnInfo.name := rowFields_names cols fs hfs
  have hfil : fs.filter fieldKeep = [] := by
    rw [List.filter_eq_nil_iff]
    intro f hf
    have : f.1 ∈ cols.map ColumnInfo.name := by
      rw [← hnames]
      exact List.mem_map_of_mem Prod.fst hf
    rcases List.mem_map.1 this with ⟨c, hc, hcn⟩
    rcases hall c hc with h | h <;> simp [fieldKeep, ← hcn, h]
  rw [emitTable, hfs]
  simp [hfil, hstmt, argsList, hins]

/-- C10 witness: a table with only `id` and `created_at` columns gets the
empty-list insert statement. -/
theorem empty_insertable_wit :
    insertStatement "events"
        [⟨"id", "integer", "NO"⟩, ⟨"created_at", "timestamp with time zone", "NO"⟩] =
      "INSERT INTO " ++ "events" ++ " ()\n        VALUES ()\n        RETURNING *" :=
  (empty_insertable "events"
    [⟨"id", "integer", "NO"⟩, ⟨"created_at", "timestamp with time zone", "NO"⟩]
    (by decide)).2.1
